import Mathlib

/-
Verification of the Stud.IP data-export client (fetch.py).

The development shallowly embeds the script's functions:
  * a JSON value model and an abstract HTTP environment stand in for
    `requests` and the remote Stud.IP JSON API;
  * `fetch`, `fetch_me`, `fetch_course`, `fetch_my_courses`,
    `fetch_semesters`, `fetch_root_folder` are translated line by line,
    with Python exceptions (KeyError / TypeError on malformed responses)
    modelled as `Option.none`;
  * the recursive folder mirror `fetch_files` / `download_file` is
    translated over a finite folder tree, with the per-folder transport
    outcomes (HTTP 200 or not) supplied by the environment.
-/

/-- JSON values, as produced by `response.json()`. -/
inductive Json where
  | null : Json
  | bool : Bool → Json
  | num : Int → Json
  | str : String → Json
  | arr : List Json → Json
  | obj : List (String × Json) → Json

/-- Dictionary lookup `j[k]`; `none` models the Python KeyError (key absent)
or TypeError (indexing a non-object with a string key). -/
def Json.get? (j : Json) (k : String) : Option Json :=
  match j with
  | Json.obj fields => fields.lookup k
  | _ => none

/-- The keys of a JSON object (empty for non-objects). -/
def Json.keys (j : Json) : List String :=
  match j with
  | Json.obj fields => fields.map (fun p => p.1)
  | _ => []

/-- An HTTP response: status code plus decoded body; `body = none` models a
body that is not valid JSON, so that `response.json()` would raise. -/
structure HttpResponse where
  status : Nat
  body : Option Json

/-- One authenticated GET request: full URL plus the basic-auth credentials
passed as `auth=(username, password)`. -/
structure Request where
  url : String
  authUser : String
  authPass : String

/-- The ambient world: the credentials imported from local_settings and the
behaviour of `requests.get` on each request. -/
structure Env where
  username : String
  password : String
  get : Request → HttpResponse

/-- Module constant from fetch.py line 14. -/
def base_url : String := "https://studip.uni-osnabrueck.de"

/-- Module constant from fetch.py line 15. -/
def api_url : String := base_url ++ "/jsonapi.php/v1"

/-- Transport function `fetch` (fetch.py lines 17-38), instrumented to also
return the list of HTTP requests it issues.  The URL is the api base plus the
route, with `?page[offset]=..&page[limit]=..` appended unless `noparams`;
a non-200 status yields the empty dict `{}` without touching the body, and a
200 status yields the decoded body (`none` = `response.json()` raised).
The `verbose` parameter only prints and is omitted. -/
def fetchR (env : Env) (url : String) (offset limit : Nat) (noparams : Bool) :
    Option Json × List Request :=
  let url := api_url ++ url
  let url := if noparams then url
             else url ++ "?page[offset]=" ++ toString offset ++ "&page[limit]=" ++ toString limit
  let req : Request := ⟨url, env.username, env.password⟩
  let response_data := env.get req
  if response_data.status ≠ 200 then (some (Json.obj []), [req])
  else (response_data.body, [req])

/-- Value part of `fetch`. -/
def fetch (env : Env) (url : String) (offset limit : Nat) (noparams : Bool) : Option Json :=
  (fetchR env url offset limit noparams).1

/-- Function `fetch_me` (fetch.py lines 41-45): `fetch(route, noparams=True)['data']`. -/
def fetch_me (env : Env) : Option Json :=
  (fetch env "/users/me" 0 10 true).bind (fun r => r.get? "data")

/-- Function `fetch_course` (fetch.py lines 117-120). -/
def fetch_course (env : Env) (id : String) : Option Json :=
  (fetch env ("/courses/" ++ id) 0 10 true).bind (fun r => r.get? "data")

/-- Extraction `membership['relationships']['course']['data']['id']`
(fetch.py line 129); the course id must be a string to form the route. -/
def membershipCourseId (m : Json) : Option String :=
  ((((m.get? "relationships").bind (fun r => r.get? "course")).bind
      (fun c => c.get? "data")).bind (fun d => d.get? "id")).bind
    (fun i => match i with | Json.str s => some s | _ => none)

/-- Result-collecting loop over `Option`: the shape shared by the Python for
loops that build a list of results and abort on the first raised error (the
monadic map specialized to `Option`). -/
def mapOpt {α β : Type} (F : α → Option β) : List α → Option (List β)
  | [] => some []
  | x :: xs => (F x).bind (fun y => (mapOpt F xs).bind (fun ys => some (y :: ys)))

/-- Function `fetch_my_courses` (fetch.py lines 123-133): fetch the
memberships page, then one course lookup per membership, in order.
Python's default `limit=500` is passed explicitly by callers.
Iterating a non-list `data` is modelled as an error. -/
def fetch_my_courses (env : Env) (user_id : String) (limit : Nat) : Option (List Json) :=
  ((fetch env ("/users/" ++ user_id ++ "/course-memberships") 0 limit false).bind
      (fun r => r.get? "data")).bind
    (fun d =>
      match d with
      | Json.arr memberships =>
          mapOpt (fun membership =>
            (membershipCourseId membership).bind (fun course_id => fetch_course env course_id))
            memberships
      | _ => none)

/-- One iteration of the `fetch_semesters` loop body (fetch.py lines 158-159):
the pair stored by `semesters[semester['id']] = semester['attributes']`. -/
def semEntry (semester : Json) : Option (Json × Json) :=
  (semester.get? "id").bind (fun i =>
    (semester.get? "attributes").map (fun a => (i, a)))

/-- The `for semester in response['data']` loop of `fetch_semesters`,
threading the accumulated dictionary.  The dictionary is recorded as the
association list of assignments in iteration order (semester ids are distinct
in a real response, so no key is assigned twice). -/
def semestersLoop : List Json → List (Json × Json) → Option (List (Json × Json))
  | [], semesters => some semesters
  | semester :: rest, semesters =>
      match semEntry semester with
      | some p => semestersLoop rest (semesters ++ [p])
      | none => none

/-- Function `fetch_semesters` (fetch.py lines 136-160): fetch `/semesters`
with limit 100 and build the id-to-attributes dictionary. -/
def fetch_semesters (env : Env) : Option (List (Json × Json)) :=
  ((fetch env "/semesters" 0 100 false).bind (fun r => r.get? "data")).bind
    (fun d =>
      match d with
      | Json.arr sems => semestersLoop sems []
      | _ => none)

/-- Every attribute name that any reading of the documentation gives for a
semester (docstring of `fetch_semesters` and spec section 3). -/
def semesterDocNames : List String :=
  ["name", "title", "start", "end", "start-of-lectures", "end-of-lectures",
   "lecture-start", "lecture-end", "visible", "visibility", "is-current", "is_current"]

/-- A file reference: id plus `attributes.name`, the two fields `fetch_files`
reads from each entry of a file-refs listing. -/
structure FileRef where
  id : String
  name : String

/-- One entry of a `/courses/{id}/folders` listing: id plus
`attributes['folder-type']`, the two fields `fetch_root_folder` reads. -/
structure FolderEntry where
  id : String
  folderType : String

/-- The remote folder hierarchy of one course, as a finite tree: folder id,
folder name (`attributes.name`), contained file references, subfolders. -/
inductive Folder where
  | node : String → String → List FileRef → List Folder → Folder

/-- Folder id accessor. -/
def Folder.id : Folder → String
  | Folder.node i _ _ _ => i

/-- Folder name accessor. -/
def Folder.name : Folder → String
  | Folder.node _ n _ _ => n

/-- Files directly contained in a folder. -/
def Folder.files : Folder → List FileRef
  | Folder.node _ _ fs _ => fs

/-- Direct subfolders of a folder. -/
def Folder.subs : Folder → List Folder
  | Folder.node _ _ _ ss => ss

/-- Response of `requests.get` on a `/file-refs/{id}/content` route: status
code and raw body bytes (`response.content`). -/
structure ContentResponse where
  status : Nat
  content : String

/-- The record of one `download_file` call: the directory passed to
`os.makedirs`, the file path opened for writing, and the bytes written. -/
structure Download where
  dir : String
  dest : String
  content : String

/-- The remote world seen by the tree mirror of one course:
`courseFolders` is the decoded `/courses/{id}/folders` listing
(`none` models a response without a `'data'` key, e.g. the empty dict that
`fetch` returns on a non-200 status); `root` is the course's folder tree
rooted at its root folder; `fileRefsOk fid` / `subfoldersOk fid` tell whether
the GET on `/folders/{fid}/file-refs` / `/folders/{fid}/folders` returns
status 200 (on 200 the decoded body is the well-formed envelope
`{"data": [...]}` listing the tree's entries, which is truthy; otherwise
`fetch` returns the falsy `{}`); `fileContent id` is the response to
`/file-refs/{id}/content`. -/
structure MirrorEnv where
  courseFolders : Option (List FolderEntry)
  root : Folder
  fileRefsOk : String → Bool
  subfoldersOk : String → Bool
  fileContent : String → ContentResponse

/-- Python's `name.replace('/', '_')` (fetch.py lines 65-66): every
occurrence of the one-character pattern is replaced, i.e. a character map. -/
def replaceSlash (s : String) : String :=
  ⟨s.data.map (fun ch => if ch = '/' then '_' else ch)⟩

/-- Function `download_file` (fetch.py lines 48-75): sanitize the two display
names, build `data/<semester>/<course>/<studip_path>`, create it, GET the
content route and write `response.content` to `<path>/<filename>` without
inspecting the status code. -/
def download_file (env : MirrorEnv) (id semester_name course_name studip_path filename :
    String) : Download :=
  let semester_name := replaceSlash semester_name
  let course_name := replaceSlash course_name
  let path := "data/" ++ semester_name ++ "/" ++ course_name ++ "/" ++ studip_path
  let response := env.fileContent id
  ⟨path, path ++ "/" ++ filename, response.content⟩

/-- Truthiness of the `folder_name` argument (`None` or a string):
Python's `if folder_name:` is false exactly on `None` and `''`. -/
def pyTruthyOptStr : Option String → Bool
  | none => false
  | some s => s ≠ ""

/-- The `for f in response['data']` loop over a folder's files
(fetch.py lines 91-97), threading the mutable local `path`: when
`folder_name` is truthy the loop re-appends it to `path` on every iteration
before downloading.  Returns the downloads in order and the final `path`. -/
def fileLoop (env : MirrorEnv) (semester course : String) (folder_name : Option String) :
    List FileRef → String → List Download × String
  | [], path => ([], path)
  | f :: fs, path =>
      let path := if pyTruthyOptStr folder_name then
                    (if path ≠ "" then path ++ "/" ++ folder_name.getD ""
                     else folder_name.getD "")
                  else path
      let d := download_file env f.id semester course path f.name
      let r := fileLoop env semester course folder_name fs path
      (d :: r.1, r.2)

/-- The recursive body of `fetch_files` (fetch.py lines 86-104), entered with
a known current folder: download the folder's files when the file-refs fetch
succeeds (threading the mutated `path`), then, when the subfolder fetch
succeeds, recurse into each subfolder with `path + name + '/'` and an omitted
`folder_name` (Python default `None`).  Returns all downloads performed. -/
def fetch_files_rec (env : MirrorEnv) (semester course : String) (g : Folder)
    (path : String) (folder_name : Option String) : List Download :=
  match g with
  | Folder.node fid _fname files subs =>
      let r := if env.fileRefsOk fid then fileLoop env semester course folder_name files path
               else ([], path)
      let subDls :=
        if env.subfoldersOk fid then
          (subs.attach.map (fun s =>
            fetch_files_rec env semester course s.1 (r.2 ++ s.1.name ++ "/") none)).flatten
        else []
      r.1 ++ subDls
termination_by sizeOf g
decreasing_by
  simp only [Folder.node.sizeOf_spec]
  have h := List.sizeOf_lt_of_mem s.2
  omega

/-- Function `fetch_root_folder` (fetch.py lines 108-115) over the decoded
`/courses/{id}/folders` listing: the id of the first entry whose
`folder-type` attribute is `'RootFolder'`, else `None`; a response without a
`'data'` key (the `none` case) also yields `None`. -/
def fetch_root_folder (resp : Option (List FolderEntry)) : Option String :=
  match resp with
  | none => none
  | some folders =>
      (folders.find? (fun folder => folder.folderType == "RootFolder")).map
        (fun folder => folder.id)

/-- The public entry `fetch_files(id, semester, course)` (fetch.py lines
78-84 and 177): `folder_id` is `None`, so the root folder is resolved,
`folder_name` is set to `''`, and a falsy resolution result aborts with no
downloads. -/
def fetch_files_main (env : MirrorEnv) (semester course : String) : List Download :=
  match fetch_root_folder env.courseFolders with
  | none => []
  | some folder_id =>
      if folder_id = "" then []
      else fetch_files_rec env semester course env.root "" (some "")

/-- Folder.depth is the depth of the folder tree (a leaf has depth 1). -/
def Folder.depth (g : Folder) : Nat :=
  match g with
  | Folder.node _ _ _ subs =>
      1 + (subs.attach.map (fun s => Folder.depth s.1)).foldr max 0
termination_by sizeOf g
decreasing_by
  simp only [Folder.node.sizeOf_spec]
  have h := List.sizeOf_lt_of_mem s.2
  omega

/-- Fuel-indexed variant of `fetch_files_rec`, counting recursion depth:
`none` means the recursion would need to nest deeper than `fuel` calls.
Used to state that the recursion of `fetch_files` terminates within the
depth of the folder tree. -/
def fetch_files_fuel (env : MirrorEnv) (semester course : String) :
    Nat → Folder → String → Option String → Option (List Download)
  | 0, _, _, _ => none
  | fuel + 1, Folder.node fid _fname files subs, path, folder_name =>
      let r := if env.fileRefsOk fid then fileLoop env semester course folder_name files path
               else ([], path)
      if env.subfoldersOk fid then
        match mapOpt (fun sub =>
            fetch_files_fuel env semester course fuel sub (r.2 ++ sub.name ++ "/") none) subs with
        | some ls => some (r.1 ++ ls.flatten)
        | none => none
      else some (r.1 ++ [])

/-- The intended mirror, with the dead `folder_name` re-append branch removed:
every file of a folder reached at accumulated path `path` is downloaded at
exactly that path.  `fetch_files_rec` coincides with it on all reachable
argument combinations (see the theorem for claim C9). -/
def fetch_files_clean (env : MirrorEnv) (semester course : String) (g : Folder)
    (path : String) : List Download :=
  match g with
  | Folder.node fid _fname files subs =>
      (if env.fileRefsOk fid then
        files.map (fun f => download_file env f.id semester course path f.name)
      else []) ++
      (if env.subfoldersOk fid then
        (subs.attach.map (fun s =>
          fetch_files_clean env semester course s.1 (path ++ s.1.name ++ "/"))).flatten
      else [])
termination_by sizeOf g
decreasing_by
  simp only [Folder.node.sizeOf_spec]
  have h := List.sizeOf_lt_of_mem s.2
  omega

/-- The value the local variable `path` holds after the file loop of one
`fetch_files` body (the value used to build the recursive calls' paths). -/
def pathAfterFiles (env : MirrorEnv) (semester course : String)
    (folder_name : Option String) (g : Folder) (path : String) : String :=
  if env.fileRefsOk g.id then (fileLoop env semester course folder_name g.files path).2
  else path

/-- The argument combinations `(folder, path, folder_name)` of the calls to
the `fetch_files` body that are reachable from the public entry
`fetch_files(course_id, semester, course)`: the root call after successful
root resolution (with `path = ''`, `folder_name = ''`), and one recursive
call per subfolder listed by a successful subfolder fetch, at the mutated
path extended with the subfolder's name and slash and with `folder_name`
omitted (`None`). -/
inductive CallArgs (env : MirrorEnv) (semester course : String) :
    Folder → String → Option String → Prop where
  | root (rid : String) :
      fetch_root_folder env.courseFolders = some rid → rid ≠ "" →
      CallArgs env semester course env.root "" (some "")
  | step {g : Folder} {path : String} {folder_name : Option String} {sub : Folder} :
      CallArgs env semester course g path folder_name →
      env.subfoldersOk g.id = true → sub ∈ g.subs →
      CallArgs env semester course sub
        (pathAfterFiles env semester course folder_name g path ++ sub.name ++ "/") none

/-- Induction principle for the folder tree: to prove a property of every
folder it suffices to prove it for a node assuming it for every subfolder. -/
def Folder.indOn {motive : Folder → Prop}
    (h : ∀ fid fname files subs, (∀ sub ∈ subs, motive sub) →
      motive (Folder.node fid fname files subs)) :
    ∀ g, motive g
  | Folder.node fid fname files subs =>
      h fid fname files subs (fun sub hs => Folder.indOn h sub)
termination_by g => sizeOf g
decreasing_by
  simp only [Folder.node.sizeOf_spec]
  have h2 := List.sizeOf_lt_of_mem hs
  omega

/-- Derived request of one `fetch` call: the full URL it builds. -/
def fetchUrl (url : String) (offset limit : Nat) (noparams : Bool) : String :=
  if noparams then api_url ++ url
  else api_url ++ url ++ "?page[offset]=" ++ toString offset ++ "&page[limit]=" ++ toString limit

/-- Derived request of one `fetch` call: URL plus the module credentials. -/
def fetchRequest (env : Env) (url : String) (offset limit : Nat) (noparams : Bool) : Request :=
  ⟨fetchUrl url offset limit noparams, env.username, env.password⟩

/-- Concrete file used by witnesses: a file two folders deep. -/
def fileW : FileRef := ⟨"file1", "notes.pdf"⟩

/-- Concrete folder b (contains the witness file). -/
def folderB : Folder := Folder.node "idb" "b" [fileW] []

/-- Concrete folder a (contains folder b). -/
def folderA : Folder := Folder.node "ida" "a" [] [folderB]

/-- Concrete root folder (contains folder a). -/
def rootW : Folder := Folder.node "idr" "root" [] [folderA]

/-- Witness mirror environment: root resolution succeeds, every per-folder
fetch succeeds, every content request returns 200. -/
def envW : MirrorEnv :=
  ⟨some [⟨"idr", "RootFolder"⟩], rootW, fun _ => true, fun _ => true, fun _ => ⟨200, "bytes"⟩⟩

/-- Witness environment whose course-folders listing has no RootFolder. -/
def envC2 : MirrorEnv :=
  ⟨some [⟨"id1", "CourseFolder"⟩], rootW, fun _ => true, fun _ => true, fun _ => ⟨200, "bytes"⟩⟩

/-- Witness mirror environment where the root folder's file-refs fetch fails
with a non-200 status but its subfolder fetch succeeds. -/
def envC4 : MirrorEnv :=
  ⟨some [⟨"idr", "RootFolder"⟩], rootW, fun fid => fid ≠ "idr", fun _ => true,
   fun _ => ⟨200, "bytes"⟩⟩

/-- Witness mirror environment whose content requests all fail with 404. -/
def envC10 : MirrorEnv :=
  ⟨none, rootW, fun _ => true, fun _ => true, fun _ => ⟨404, "error page"⟩⟩

/-- Witness transport environment: every HTTP request fails with 404 and an
undecodable body. -/
def envHttpFail : Env := ⟨"user", "secret", fun _ => ⟨404, none⟩⟩

/-- A semester attributes object carrying an attribute beyond the documented
set. -/
def attrsC5 : Json := Json.obj [("title", Json.str "WS 2025"), ("extra", Json.str "x")]

/-- Transport environment whose semesters listing carries `attrsC5`. -/
def envC5 : Env :=
  ⟨"user", "secret", fun _ => ⟨200, some (Json.obj [("data", Json.arr
    [Json.obj [("id", Json.str "s1"), ("attributes", attrsC5)]])])⟩⟩

/-- A semester attributes object with documented attribute names only. -/
def attrsOk : Json :=
  Json.obj [("title", Json.str "WS 2025"), ("start", Json.str "2025-10-01T00:00:00+02:00")]

/-- Transport environment whose semesters listing carries `attrsOk`. -/
def envC5W : Env :=
  ⟨"user", "secret", fun _ => ⟨200, some (Json.obj [("data", Json.arr
    [Json.obj [("id", Json.str "s1"), ("attributes", attrsOk)]])])⟩⟩

/-- With a falsy `folder_name` (the only reachable case) the file loop
downloads every file at the unchanged accumulated path. -/
theorem fileLoop_falsy (env : MirrorEnv) (semester course : String)
    (folder_name : Option String) (h : pyTruthyOptStr folder_name = false) :
    ∀ (files : List FileRef) (path : String),
      fileLoop env semester course folder_name files path =
        (files.map (fun f => download_file env f.id semester course path f.name), path) := by
  intro files
  induction files with
  | nil => intro path; simp [fileLoop]
  | cons f fs ih => intro path; simp [fileLoop, h, ih]

/-- With a falsy `folder_name`, the translated body coincides with the
cleaned-up mirror. -/
theorem fetch_files_rec_eq_clean (env : MirrorEnv) (semester course : String) :
    ∀ (g : Folder) (path : String) (folder_name : Option String),
      pyTruthyOptStr folder_name = false →
      fetch_files_rec env semester course g path folder_name =
        fetch_files_clean env semester course g path := by
  intro g
  induction g using Folder.indOn with
  | _ fid fname files subs ih =>
      intro path folder_name hfn
      rw [fetch_files_rec, fetch_files_clean]
      have hfl := fileLoop_falsy env semester course folder_name hfn
      by_cases hf : env.fileRefsOk fid <;>
        by_cases hs : env.subfoldersOk fid <;>
          simp [hf, hs, hfl] <;>
          first
            | rfl
            | (refine congrArg List.flatten ?_
               apply List.map_congr_left
               intro sub hmem
               exact ih sub hmem _ none rfl)

/-- Every reachable call has a falsy `folder_name`. -/
theorem callArgs_falsy {env : MirrorEnv} {semester course : String} {g : Folder}
    {path : String} {folder_name : Option String}
    (h : CallArgs env semester course g path folder_name) :
    pyTruthyOptStr folder_name = false := by
  cases h <;> rfl

/-- With a falsy `folder_name`, the file loop leaves `path` unchanged. -/
theorem pathAfterFiles_falsy (env : MirrorEnv) (semester course : String)
    {folder_name : Option String} (hfn : pyTruthyOptStr folder_name = false)
    (g : Folder) (path : String) :
    pathAfterFiles env semester course folder_name g path = path := by
  unfold pathAfterFiles
  rw [fileLoop_falsy env semester course folder_name hfn]
  simp

/-- Downloads of the cleaned mirror at a reachable call are downloads of the
whole run. -/
theorem callArgs_clean_mem_main {env : MirrorEnv} {semester course : String} :
    ∀ {g : Folder} {path : String} {folder_name : Option String},
      CallArgs env semester course g path folder_name →
      ∀ {d : Download}, d ∈ fetch_files_clean env semester course g path →
        d ∈ fetch_files_main env semester course := by
  intro g path folder_name h
  induction h with
  | root rid hr hne =>
      intro d hd
      unfold fetch_files_main
      rw [hr]
      simp only [hne, if_false]
      rw [fetch_files_rec_eq_clean env semester course env.root "" (some "") (by decide)]
      exact hd
  | step hc hsubs hmem ih =>
      intro d hd
      apply ih
      rw [pathAfterFiles_falsy env semester course (callArgs_falsy hc)] at hd
      rename_i g2 path2 fn2 sub2
      cases g2 with
      | node fid fname files subs =>
          rw [fetch_files_clean]
          apply List.mem_append_right
          have hsubs2 : env.subfoldersOk fid = true := hsubs
          simp only [hsubs2, if_true]
          apply List.mem_flatten.mpr
          refine ⟨fetch_files_clean env semester course sub2 (path2 ++ sub2.name ++ "/"), ?_, hd⟩
          have hmem2 : sub2 ∈ subs := hmem
          exact List.mem_map_of_mem _ (List.mem_attach _ ⟨sub2, hmem2⟩)

/-- A result-collecting loop over `Option` that succeeds pointwise collects
the pointwise results. -/
theorem mapOpt_eq_map {α β : Type} (F : α → Option β) (G : α → β) :
    ∀ (l : List α), (∀ x ∈ l, F x = some (G x)) → mapOpt F l = some (l.map G) := by
  intro l
  induction l with
  | nil => intro h; rfl
  | cons x xs ih =>
      intro h
      simp [mapOpt, h x (by simp), ih (fun y hy => h y (by simp [hy]))]

/-- Each element's value is bounded by the folded maximum. -/
theorem le_foldr_max {α : Type} (f : α → Nat) :
    ∀ (l : List α) (a : α), a ∈ l → f a ≤ (l.map f).foldr max 0 := by
  intro l
  induction l with
  | nil => intro a ha; cases ha
  | cons x xs ih =>
      intro a ha
      simp only [List.map_cons, List.foldr_cons]
      rcases List.mem_cons.mp ha with h | h
      · subst h; exact Nat.le_max_left _ _
      · exact Nat.le_trans (ih a h) (Nat.le_max_right _ _)

/-- Unfolding of `Folder.depth` at a node, with the attach map removed. -/
theorem depth_node (fid fname : String) (files : List FileRef) (subs : List Folder) :
    Folder.depth (Folder.node fid fname files subs) =
      1 + (subs.map Folder.depth).foldr max 0 := by
  rw [Folder.depth]
  rw [List.attach_map_val subs Folder.depth]

/-- Any fuel of at least the tree depth makes the fuel-indexed mirror succeed
with exactly the downloads of the unbounded recursion. -/
theorem fuel_eq_rec (env : MirrorEnv) (semester course : String) :
    ∀ (g : Folder) (fuel : Nat) (path : String) (folder_name : Option String),
      Folder.depth g ≤ fuel →
      fetch_files_fuel env semester course fuel g path folder_name =
        some (fetch_files_rec env semester course g path folder_name) := by
  intro g
  induction g using Folder.indOn with
  | _ fid fname files subs ih =>
      intro fuel path folder_name hfuel
      rw [depth_node] at hfuel
      cases fuel with
      | zero => omega
      | succ fuel =>
          rw [fetch_files_fuel, fetch_files_rec]
          by_cases hs : env.subfoldersOk fid
          · simp only [hs, if_true]
            have hmm := mapOpt_eq_map
              (fun sub => fetch_files_fuel env semester course fuel sub
                ((if env.fileRefsOk fid then
                    fileLoop env semester course folder_name files path
                  else ([], path)).2 ++ sub.name ++ "/") none)
              (fun sub => fetch_files_rec env semester course sub
                ((if env.fileRefsOk fid then
                    fileLoop env semester course folder_name files path
                  else ([], path)).2 ++ sub.name ++ "/") none)
              subs
              (fun sub hsub => ih sub hsub fuel _ none
                (Nat.le_trans (le_foldr_max Folder.depth subs sub hsub) (by omega)))
            simp only [hmm]
            simp [List.attach_map_val]
          · simp [hs]

/-- Characters produced by the sanitizer are never the path separator. -/
theorem replaceSlash_no_slash (s : String) : ∀ ch ∈ (replaceSlash s).data, ch ≠ '/' := by
  intro ch hch
  have h : ch ∈ s.data.map (fun c0 => if c0 = '/' then '_' else c0) := hch
  obtain ⟨c0, hc0, hmap⟩ := List.mem_map.mp h
  by_cases h0 : c0 = '/'
  · rw [h0] at hmap
    simp only [if_pos rfl] at hmap
    rw [← hmap]
    decide
  · simp only [if_neg h0] at hmap
    rw [← hmap]
    exact h0

/-- C3: for every route, `fetch` issues exactly one authenticated GET whose
URL appends the pagination query parameters unless `noparams` is set, returns
the decoded JSON body when the status is 200, and returns the empty mapping
on any other status without raising (the body, decodable or not, is never
touched). -/
theorem c3_transport_contract (env : Env) (url : String) (offset limit : Nat)
    (noparams : Bool) :
    (fetchR env url offset limit noparams).2 = [fetchRequest env url offset limit noparams] ∧
    ((env.get (fetchRequest env url offset limit noparams)).status = 200 →
      fetch env url offset limit noparams =
        (env.get (fetchRequest env url offset limit noparams)).body) ∧
    ((env.get (fetchRequest env url offset limit noparams)).status ≠ 200 →
      fetch env url offset limit noparams = some (Json.obj [])) := by
  refine ⟨?_, ?_, ?_⟩
  · unfold fetchR fetchRequest fetchUrl
    by_cases hnp : noparams <;>
      simp only [hnp, Bool.false_eq_true, eq_self_iff_true, if_true, if_false, ite_true,
        ite_false] <;>
      split <;> rfl
  · intro h
    unfold fetchRequest fetchUrl at h ⊢
    unfold fetch fetchR
    by_cases hnp : noparams <;>
      simp only [hnp, Bool.false_eq_true, eq_self_iff_true, if_true, if_false, ite_true,
        ite_false] at h ⊢ <;>
      simp [h]
  · intro h
    unfold fetchRequest fetchUrl at h
    unfold fetch fetchR
    by_cases hnp : noparams <;>
      simp only [hnp, Bool.false_eq_true, eq_self_iff_true, if_true, if_false, ite_true,
        ite_false] at h ⊢ <;>
      simp [h]

/-- Witness for C3 at a concrete failing environment. -/
theorem c3_witness :
    (fetchR envHttpFail "/users/me" 0 10 true).2 =
      [⟨"https://studip.uni-osnabrueck.de/jsonapi.php/v1/users/me", "user", "secret"⟩] ∧
    (envHttpFail.get (fetchRequest envHttpFail "/users/me" 0 10 true)).status ≠ 200 ∧
    fetch envHttpFail "/users/me" 0 10 true = some (Json.obj []) := by
  have h := c3_transport_contract envHttpFail "/users/me" 0 10 true
  exact ⟨h.1, by decide, h.2.2 (by decide)⟩

/-- C7: whenever every transport response decodes to a mapping without the
expected data key (or does not decode at all), each entity fetcher propagates
an unhandled error (modelled by `none`) instead of returning a default. -/
theorem c7_malformed_propagates (env : Env)
    (h : ∀ (url : String) (offset limit : Nat) (noparams : Bool),
      (fetch env url offset limit noparams).bind (fun r => r.get? "data") = none)
    (course_id user_id : String) (limit : Nat) :
    fetch_me env = none ∧ fetch_course env course_id = none ∧
    fetch_my_courses env user_id limit = none ∧ fetch_semesters env = none := by
  refine ⟨h _ _ _ _, h _ _ _ _, ?_, ?_⟩
  · unfold fetch_my_courses
    rw [h]
    rfl
  · unfold fetch_semesters
    rw [h]
    rfl

/-- Witness for C7 at a concrete failing environment. -/
theorem c7_witness :
    fetch_me envHttpFail = none ∧ fetch_course envHttpFail "c1" = none ∧
    fetch_my_courses envHttpFail "u1" 500 = none ∧ fetch_semesters envHttpFail = none := by
  have h : ∀ (url : String) (offset limit : Nat) (noparams : Bool),
      (fetch envHttpFail url offset limit noparams).bind (fun r => r.get? "data") = none := by
    intro url offset limit noparams
    rfl
  exact c7_malformed_propagates envHttpFail h "c1" "u1" 500

/-- C2: when the course's folder listing contains no folder whose type tag is
RootFolder, root resolution returns None and the mirror entry returns with no
downloads and no error. -/
theorem c2_no_root_folder (env : MirrorEnv) (semester course : String)
    (folders : List FolderEntry)
    (hcf : env.courseFolders = some folders)
    (hnone : ∀ fe ∈ folders, fe.folderType ≠ "RootFolder") :
    fetch_root_folder env.courseFolders = none ∧
    fetch_files_main env semester course = [] := by
  have hfind : folders.find? (fun folder => folder.folderType == "RootFolder") = none := by
    apply List.find?_eq_none.mpr
    intro fe hfe
    simp [hnone fe hfe]
  constructor
  · rw [hcf]
    simp [fetch_root_folder, hfind]
  · unfold fetch_files_main
    rw [hcf]
    simp [fetch_root_folder, hfind]

/-- Witness for C2 at a concrete listing without a RootFolder entry. -/
theorem c2_witness :
    envC2.courseFolders = some [⟨"id1", "CourseFolder"⟩] ∧
    (∀ fe ∈ [(⟨"id1", "CourseFolder"⟩ : FolderEntry)], fe.folderType ≠ "RootFolder") ∧
    fetch_root_folder envC2.courseFolders = none ∧
    fetch_files_main envC2 "WS25" "Course" = [] := by
  have h := c2_no_root_folder envC2 "WS25" "Course" [⟨"id1", "CourseFolder"⟩] rfl (by decide)
  exact ⟨rfl, by decide, h.1, h.2⟩

/-- C4: when the file-refs fetch for a folder fails (non-200, mapped to the
falsy empty dict) but the subfolder fetch succeeds, the body downloads none
of that folder's files, raises nothing, and still recurses into every listed
subfolder with the correctly extended path. -/
theorem c4_filerefs_failure_skips (env : MirrorEnv) (semester course : String)
    (g : Folder) (path : String) (folder_name : Option String)
    (hfail : env.fileRefsOk g.id = false)
    (hsubs : env.subfoldersOk g.id = true) :
    fetch_files_rec env semester course g path folder_name =
      (g.subs.map (fun sub =>
        fetch_files_rec env semester course sub (path ++ sub.name ++ "/") none)).flatten := by
  cases g with
  | node fid fname files subs =>
      rw [fetch_files_rec]
      have hf : env.fileRefsOk fid = false := hfail
      have hs2 : env.subfoldersOk fid = true := hsubs
      simp [hf, hs2, List.attach_map_val, Folder.subs, Folder.name]

/-- Witness for C4: the root's file-refs fetch fails, yet the subfolder is
still processed. -/
theorem c4_witness :
    envC4.fileRefsOk rootW.id = false ∧ envC4.subfoldersOk rootW.id = true ∧
    fetch_files_rec envC4 "WS25" "Course" rootW "" (some "") =
      (rootW.subs.map (fun sub =>
        fetch_files_rec envC4 "WS25" "Course" sub ("" ++ sub.name ++ "/") none)).flatten := by
  exact ⟨by decide, rfl, c4_filerefs_failure_skips envC4 "WS25" "Course" rootW "" (some "")
    (by decide) rfl⟩

/-- C6: the destination path sanitizes exactly the semester and course display
names, replacing each slash character by an underscore, while the folder path
and the file name enter the path verbatim. -/
theorem c6_sanitization (env : MirrorEnv)
    (id semester course studip_path filename : String) :
    (download_file env id semester course studip_path filename).dest =
      "data/" ++ replaceSlash semester ++ "/" ++ replaceSlash course ++ "/" ++
        studip_path ++ "/" ++ filename ∧
    (replaceSlash semester).data =
      semester.data.map (fun ch => if ch = '/' then '_' else ch) ∧
    (∀ ch ∈ (replaceSlash semester).data, ch ≠ '/') ∧
    (∀ ch ∈ (replaceSlash course).data, ch ≠ '/') :=
  ⟨rfl, rfl, replaceSlash_no_slash semester, replaceSlash_no_slash course⟩

/-- Witness for C6 at names containing slashes. -/
theorem c6_witness :
    (download_file envW "f1" "WS 24/25" "Info/Mathe" "sub" "file.txt").dest =
      "data/WS 24_25/Info_Mathe/sub/file.txt" ∧
    (∀ ch ∈ (replaceSlash "WS 24/25").data, ch ≠ '/') := by
  have h := c6_sanitization envW "f1" "WS 24/25" "Info/Mathe" "sub" "file.txt"
  refine ⟨?_, h.2.2.1⟩
  rw [h.1]
  decide

/-- C10: `download_file` writes the response body unconditionally; even on a
non-success status the destination file is created and holds the error
response's bytes. -/
theorem c10_unconditional_write (env : MirrorEnv)
    (id semester course studip_path filename : String)
    (hfail : (env.fileContent id).status ≠ 200) :
    (download_file env id semester course studip_path filename).content =
      (env.fileContent id).content ∧
    (download_file env id semester course studip_path filename).dest =
      "data/" ++ replaceSlash semester ++ "/" ++ replaceSlash course ++ "/" ++
        studip_path ++ "/" ++ filename :=
  ⟨rfl, rfl⟩

/-- Witness for C10 at a concrete 404 content response. -/
theorem c10_witness :
    (envC10.fileContent "f1").status ≠ 200 ∧
    (download_file envC10 "f1" "S" "C" "p" "f.txt").content = "error page" ∧
    (download_file envC10 "f1" "S" "C" "p" "f.txt").dest = "data/S/C/p/f.txt" := by
  have h := c10_unconditional_write envC10 "f1" "S" "C" "p" "f.txt" (by decide)
  refine ⟨by decide, ?_, ?_⟩
  · rw [h.1]
    decide
  · rw [h.2]
    decide

/-- C1: every file of a folder reached by the mirror at accumulated relative
path `path` is downloaded, and its destination on disk is exactly
`data/<semester>/<course>/<path>/<filename>` (with the two display names
sanitized), at every nesting depth.  The accumulated path is the `path`
argument the recursion threads: `''` at the root and extended by
`<subfolder name>/` at each descent. -/
theorem c1_destination_path {env : MirrorEnv} {semester course : String} {g : Folder}
    {path : String} {folder_name : Option String}
    (hreach : CallArgs env semester course g path folder_name)
    {f : FileRef} (hf : f ∈ g.files) (hok : env.fileRefsOk g.id = true) :
    download_file env f.id semester course path f.name ∈
      fetch_files_main env semester course ∧
    (download_file env f.id semester course path f.name).dest =
      "data/" ++ replaceSlash semester ++ "/" ++ replaceSlash course ++ "/" ++
        path ++ "/" ++ f.name := by
  refine ⟨?_, rfl⟩
  apply callArgs_clean_mem_main hreach
  cases g with
  | node fid fname files subs =>
      rw [fetch_files_clean]
      apply List.mem_append_left
      have hok2 : env.fileRefsOk fid = true := hok
      have hf2 : f ∈ files := hf
      simp only [hok2, if_true]
      exact List.mem_map_of_mem _ hf2

/-- Witness for C1: a file two folders deep lands at
`data/<semester>/<course>/a/b//notes.pdf` (the threaded path `a/b/` ends in a
separator, hence the doubled slash before the file name). -/
theorem c1_witness :
    fileW ∈ folderB.files ∧ envW.fileRefsOk folderB.id = true ∧
    download_file envW fileW.id "WS25" "Course" "a/b/" fileW.name ∈
      fetch_files_main envW "WS25" "Course" ∧
    (download_file envW fileW.id "WS25" "Course" "a/b/" fileW.name).dest =
      "data/WS25/Course/a/b//notes.pdf" := by
  have hroot : CallArgs envW "WS25" "Course" rootW "" (some "") :=
    CallArgs.root "idr" rfl (by decide)
  have hmemA : folderA ∈ rootW.subs := List.mem_singleton.mpr rfl
  have ha : CallArgs envW "WS25" "Course" folderA "a/" none :=
    CallArgs.step hroot rfl hmemA
  have hmemB : folderB ∈ folderA.subs := List.mem_singleton.mpr rfl
  have hb : CallArgs envW "WS25" "Course" folderB "a/b/" none :=
    CallArgs.step ha rfl hmemB
  have hfm : fileW ∈ folderB.files := List.mem_singleton.mpr rfl
  have h := c1_destination_path hb hfm rfl
  refine ⟨hfm, rfl, h.1, ?_⟩
  rw [h.2]
  decide

/-- C8: the recursion of the tree mirror terminates on every finite folder
tree, within recursion depth equal to the depth of the tree: any fuel of at
least the tree depth does not run out and computes the very downloads of the
unbounded recursion (a folder without subfolders recurses no further, so a
tree of depth 1 needs fuel 1). -/
theorem c8_termination_depth (env : MirrorEnv) (semester course : String)
    (g : Folder) (path : String) (folder_name : Option String) (fuel : Nat)
    (h : Folder.depth g ≤ fuel) :
    fetch_files_fuel env semester course fuel g path folder_name =
      some (fetch_files_rec env semester course g path folder_name) :=
  fuel_eq_rec env semester course g fuel path folder_name h

/-- Witness for C8 at the depth-3 witness tree with fuel 3. -/
theorem c8_witness :
    Folder.depth rootW ≤ 3 ∧
    fetch_files_fuel envW "WS25" "Course" 3 rootW "" (some "") =
      some (fetch_files_rec envW "WS25" "Course" rootW "" (some "")) := by
  have hdepth : Folder.depth rootW ≤ 3 := by
    have hb : Folder.depth folderB = 1 := by
      rw [show folderB = Folder.node "idb" "b" [fileW] [] from rfl, depth_node]
      rfl
    have ha : Folder.depth folderA = 2 := by
      rw [show folderA = Folder.node "ida" "a" [] [folderB] from rfl, depth_node]
      rw [List.map_cons, List.map_nil, List.foldr_cons, List.foldr_nil, hb]
      rfl
    have hr : Folder.depth rootW = 3 := by
      rw [show rootW = Folder.node "idr" "root" [] [folderA] from rfl, depth_node]
      rw [List.map_cons, List.map_nil, List.foldr_cons, List.foldr_nil, ha]
      rfl
    rw [hr]
  exact ⟨hdepth, c8_termination_depth envW "WS25" "Course" rootW "" (some "") 3 hdepth⟩

/-- C9: in every call of the `fetch_files` body reachable from the public
entry point, `folder_name` is the empty string (root call) or None (all
recursive calls); both are falsy, so the branch that re-appends `folder_name`
inside the file loop never runs and the body computes exactly the cleaned
mirror, in which no path segment is ever duplicated. -/
theorem c9_folder_name_invariant (env : MirrorEnv) (semester course : String)
    (g : Folder) (path : String) (folder_name : Option String)
    (h : CallArgs env semester course g path folder_name) :
    (folder_name = some "" ∨ folder_name = none) ∧
    fetch_files_rec env semester course g path folder_name =
      fetch_files_clean env semester course g path := by
  constructor
  · cases h with
    | root rid hr hne => exact Or.inl rfl
    | step hc hs hm => exact Or.inr rfl
  · exact fetch_files_rec_eq_clean env semester course g path folder_name (callArgs_falsy h)

/-- Witness for C9 at a concrete reachable recursive call. -/
theorem c9_witness :
    CallArgs envW "WS25" "Kurs" folderA "a/" none ∧
    ((none : Option String) = some "" ∨ (none : Option String) = none) ∧
    fetch_files_rec envW "WS25" "Kurs" folderA "a/" none =
      fetch_files_clean envW "WS25" "Kurs" folderA "a/" := by
  have hroot : CallArgs envW "WS25" "Kurs" rootW "" (some "") :=
    CallArgs.root "idr" rfl (by decide)
  have hmemA : folderA ∈ rootW.subs := List.mem_singleton.mpr rfl
  have ha : CallArgs envW "WS25" "Kurs" folderA "a/" none :=
    CallArgs.step hroot rfl hmemA
  have h := c9_folder_name_invariant envW "WS25" "Kurs" folderA "a/" none ha
  exact ⟨ha, h.1, h.2⟩

/-- Each element of a successful result-collecting loop's output comes from
some input element. -/
theorem mapOpt_mem_source {α β : Type} (F : α → Option β) :
    ∀ (l : List α) (l2 : List β), mapOpt F l = some l2 →
      ∀ y ∈ l2, ∃ x ∈ l, F x = some y := by
  intro l
  induction l with
  | nil =>
      intro l2 h y hy
      cases h
      cases hy
  | cons x xs ih =>
      intro l2 h y hy
      cases hFx : F x with
      | none => rw [mapOpt, hFx] at h; cases h
      | some b =>
          cases hMs : mapOpt F xs with
          | none => rw [mapOpt, hFx, hMs] at h; cases h
          | some bs =>
              rw [mapOpt, hFx, hMs] at h
              simp only [Option.some_bind, Option.some.injEq] at h
              subst h
              rcases List.mem_cons.mp hy with h1 | h2
              · exact ⟨x, List.mem_cons_self x xs, by rw [hFx, h1]⟩
              · obtain ⟨x2, hx2, hfx2⟩ := ih bs hMs y h2
                exact ⟨x2, List.mem_cons_of_mem x hx2, hfx2⟩

/-- A successful loop-body step determines the id and attributes lookups. -/
theorem semEntry_spec (s : Json) (p : Json × Json) (h : semEntry s = some p) :
    s.get? "id" = some p.1 ∧ s.get? "attributes" = some p.2 := by
  unfold semEntry at h
  cases hid : s.get? "id" with
  | none => rw [hid] at h; cases h
  | some i =>
      cases hat : s.get? "attributes" with
      | none => rw [hid, hat] at h; cases h
      | some a =>
          rw [hid, hat] at h
          have h2 : some (i, a) = some p := h
          cases h2
          exact ⟨rfl, rfl⟩

/-- The semesters loop is the monadic map of its body, appended to the
accumulator. -/
theorem semestersLoop_eq :
    ∀ (sems : List Json) (acc : List (Json × Json)),
      semestersLoop sems acc = (mapOpt semEntry sems).map (fun ps => acc ++ ps) := by
  intro sems
  induction sems with
  | nil => intro acc; simp [semestersLoop, mapOpt]
  | cons s rest ih =>
      intro acc
      rw [semestersLoop, mapOpt]
      cases hs : semEntry s with
      | none => simp [hs]
      | some p =>
          cases hr : mapOpt semEntry rest with
          | none => simp [hs, hr, ih (acc ++ [p])]
          | some ps => simp [hs, hr, ih (acc ++ [p]), List.append_assoc]

/-- C5 counterexample: the code stores each semester's attributes object
verbatim, so a response attribute outside the documented set survives into
the returned mapping; the mapping's value does not consist of exactly the
documented attributes. -/
theorem c5_counterexample :
    fetch_semesters envC5 = some [(Json.str "s1", attrsC5)] ∧
    "extra" ∈ attrsC5.keys ∧ "extra" ∉ semesterDocNames := by
  refine ⟨?_, by decide, by decide⟩
  rfl

/-- C5 amended: `fetch_semesters` returns the mapping keyed by semester id
whose values are exactly the per-semester attributes objects of the response,
passed through verbatim (so they carry exactly the documented attributes
precisely when the response does). -/
theorem c5_amended_attributes_verbatim (env : Env) (resp : Json) (sems : List Json)
    (pairs : List (Json × Json))
    (h1 : fetch env "/semesters" 0 100 false = some resp)
    (h2 : resp.get? "data" = some (Json.arr sems))
    (h3 : mapOpt semEntry sems = some pairs) :
    fetch_semesters env = some pairs ∧
    ∀ p ∈ pairs, ∃ s ∈ sems,
      s.get? "id" = some p.1 ∧ s.get? "attributes" = some p.2 := by
  constructor
  · unfold fetch_semesters
    rw [h1]
    simp only [Option.some_bind]
    rw [h2]
    simp only [Option.some_bind]
    show semestersLoop sems [] = some pairs
    rw [semestersLoop_eq, h3]
    simp
  · intro p hp
    obtain ⟨s, hssrc, hse⟩ := mapOpt_mem_source semEntry sems pairs h3 p hp
    exact ⟨s, hssrc, semEntry_spec s p hse⟩

/-- Witness for the amended C5 at a concrete well-formed response. -/
theorem c5_amended_witness :
    fetch envC5W "/semesters" 0 100 false =
      some (Json.obj [("data", Json.arr
        [Json.obj [("id", Json.str "s1"), ("attributes", attrsOk)]])]) ∧
    fetch_semesters envC5W = some [(Json.str "s1", attrsOk)] ∧
    ∀ p ∈ [(Json.str "s1", attrsOk)],
      ∃ s ∈ [Json.obj [("id", Json.str "s1"), ("attributes", attrsOk)]],
        s.get? "id" = some p.1 ∧ s.get? "attributes" = some p.2 := by
  have h := c5_amended_attributes_verbatim envC5W
    (Json.obj [("data", Json.arr
      [Json.obj [("id", Json.str "s1"), ("attributes", attrsOk)]])])
    [Json.obj [("id", Json.str "s1"), ("attributes", attrsOk)]]
    [(Json.str "s1", attrsOk)] rfl rfl rfl
  exact ⟨rfl, h.1, h.2⟩
